import Mathlib

/-!
Verification of the unregistry containerd storage adapter
(`internal/storage/containerd`: `blobwriter.go`, `blob.go`, `manifest.go`,
`tags.go`) against its natural-language specification.

The adapter is embedded shallowly: the containerd content/lease/image store
(an external dependency of the repository) is modelled as an explicit state
record `Store`, and each Go function of the adapter becomes a pure Lean
function threading that state.  Byte strings are `List Nat`; the digest
function is an abstract parameter (instantiated with an injective function
in witnesses), since the adapter treats digests opaquely.
-/

namespace Unregistry

/-- Byte sequences (blob contents). -/
abbrev Bytes := List Nat

/-- Content digests.  A digest is an opaque byte string computed from the
content by the digest function `dg`, which is a parameter of the model. -/
abbrev Digest := List Nat

/-- Association-list lookup used for all keyed collections of the model. -/
def alookup {α : Type} {β : Type} [DecidableEq α] (k : α) : List (α × β) → Option β
  | [] => none
  | p :: rest => if k = p.1 then some p.2 else alookup k rest

theorem alookup_nil {α : Type} {β : Type} [DecidableEq α] (k : α) :
    alookup (β := β) k [] = none := rfl

theorem alookup_eq_some_mem {α : Type} {β : Type} [DecidableEq α] {k : α} {v : β} :
    ∀ {l : List (α × β)}, alookup k l = some v → (k, v) ∈ l := by
  intro l
  induction l with
  | nil => intro h; simp [alookup] at h
  | cons p rest ih =>
    intro h
    by_cases hk : k = p.1
    · subst hk
      simp [alookup] at h
      rw [← h]
      exact List.mem_cons_self _ _
    · simp [alookup, hk] at h
      exact List.mem_cons_of_mem _ (ih h)

/-- Descriptor: `{mediaType, digest, size}` (distribution.Descriptor). -/
structure Descriptor where
  mediaType : String
  digest : Digest
  size : Nat
deriving DecidableEq

/-- Error taxonomy surfaced by the adapter (distribution errors plus the
wrapping performed with fmt.Errorf). -/
inductive DErr where
  | blobUnknown
  | manifestUnknownRevision (name : String) (revision : Digest)
  | manifestUnknown (name : String) (tag : String)
  | tagUnknown (tag : String)
  | manifestVerification
  | unsupported
  | invalidArgument
  | internal (msg : String)
  | wrapped (msg : String) (inner : DErr)
deriving DecidableEq

/-- State of the backing containerd store: committed content keyed by digest,
in-progress ingests keyed by writer ref, open content writers, active leases,
garbage-collection labels (parent digest paired with the child digests named
by its labels), and image records (name paired with target descriptor). -/
structure Store where
  committed : List (Digest × Bytes)
  ingests : List (String × Bytes)
  openWriters : List String
  leases : List String
  labels : List (Digest × List Digest)
  images : List (String × Descriptor)
deriving DecidableEq

/-- The empty containerd store. -/
def emptyStore : Store :=
  { committed := [], ingests := [], openWriters := [], leases := [], labels := [], images := [] }

/-- Containerd lease creation (leases.Manager.Create). -/
def leaseCreate (st : Store) (id : String) : Store :=
  { st with leases := id :: st.leases }

/-- Containerd lease deletion (leases.Manager.Delete).  Deletion is
idempotent: deleting an absent lease leaves the state unchanged. -/
def leaseDelete (st : Store) (id : String) : Store :=
  { st with leases := st.leases.filter (fun x => x ≠ id) }

theorem mem_leaseDelete {st : Store} {x id : String} :
    x ∈ (leaseDelete st id).leases ↔ x ∈ st.leases ∧ x ≠ id := by
  simp [leaseDelete]

/-- Containerd content.OpenWriter with a named ref: resumes the existing
ingest for the ref, or starts an empty one.  Returns the updated store and
the writer status offset (number of staged bytes). -/
def openWriter (st : Store) (ref : String) : Store × Nat :=
  match alookup ref st.ingests with
  | some staged => ({ st with openWriters := ref :: st.openWriters }, staged.length)
  | none =>
      ({ st with ingests := (ref, []) :: st.ingests,
                 openWriters := ref :: st.openWriters }, 0)

/-- Appending data to the staged ingest of a ref (content.Writer.Write). -/
def ingestAppend (st : Store) (ref : String) (data : Bytes) : Store :=
  { st with ingests := st.ingests.map (fun p => if p.1 = ref then (p.1, p.2 ++ data) else p) }

theorem alookup_map_append {k : String} (d : Bytes) :
    ∀ (l : List (String × Bytes)),
      alookup k (l.map (fun p => if p.1 = k then (p.1, p.2 ++ d) else p)) =
        (alookup k l).map (fun b => b ++ d) := by
  intro l
  induction l with
  | nil => simp [alookup]
  | cons p rest ih =>
    by_cases hk : p.1 = k
    · simp [alookup, hk, ih]
    · have hk' : ¬ k = p.1 := fun h => hk h.symm
      simp [alookup, hk, hk', ih]

theorem alookup_ingestAppend_self {st : Store} {ref : String} {b : Bytes} (d : Bytes)
    (h : alookup ref st.ingests = some b) :
    alookup ref (ingestAppend st ref d).ingests = some (b ++ d) := by
  simp [ingestAppend, alookup_map_append, h]

/-- Outcome of a containerd content.Writer.Commit call. -/
inductive CommitOutcome where
  | ok
  | alreadyExists
  | failed (msg : String)
deriving DecidableEq

/-- Containerd content.Writer.Commit semantics: the staged bytes of the ref
are validated against the expected size and digest; if the target digest is
already committed the ingest is discarded and already-exists is reported;
otherwise the staged bytes become committed content under the digest. -/
def writerCommit (dg : Bytes → Digest) (st : Store) (ref : String)
    (size : Nat) (expected : Digest) : CommitOutcome × Store :=
  match alookup ref st.ingests with
  | none => (.failed "ingest does not exist", st)
  | some staged =>
    if size ≠ staged.length then (.failed "unexpected commit size", st)
    else if expected ≠ dg staged then (.failed "unexpected commit digest", st)
    else if (alookup expected st.committed).isSome then
      (.alreadyExists,
        { st with ingests := st.ingests.filter (fun p => p.1 ≠ ref),
                  openWriters := st.openWriters.filter (fun x => x ≠ ref) })
    else
      (.ok,
        { st with committed := (expected, staged) :: st.committed,
                  ingests := st.ingests.filter (fun p => p.1 ≠ ref),
                  openWriters := st.openWriters.filter (fun x => x ≠ ref) })

theorem writerCommit_leases (dg : Bytes → Digest) (st : Store) (ref : String)
    (size : Nat) (expected : Digest) :
    (writerCommit dg st ref size expected).2.leases = st.leases := by
  unfold writerCommit
  split
  · rfl
  · split
    · rfl
    · split
      · rfl
      · split <;> rfl

theorem writerCommit_alreadyExists_isSome {dg : Bytes → Digest} {st : Store} {ref : String}
    {size : Nat} {expected : Digest} {st1 : Store}
    (h : writerCommit dg st ref size expected = (.alreadyExists, st1)) :
    (alookup expected st1.committed).isSome = true := by
  unfold writerCommit at h
  split at h
  · simp at h
  · split at h
    · simp at h
    · split at h
      · simp at h
      · split at h
        · rename_i hsome
          simp only [Prod.mk.injEq] at h
          rw [← h.2]
          exact hsome
        · simp at h

/-- Blob writer state (blobWriter in blobwriter.go): upload id, the id of the
lease created for the upload, and the total number of bytes written
(primed from the writer status offset when resuming). -/
structure BlobWriter where
  id : String
  leaseId : String
  size : Nat
deriving DecidableEq

/-- The containerd writer ref used for an upload id (content.WithRef in
newBlobWriter). -/
def uploadRef (id : String) : String := "upload-" ++ id

/-- newBlobWriter (blobwriter.go lines 42 to 90): pick a fresh uuid when no
id is supplied, create a lease, open a content writer under the ref
`upload-` + id, and prime the size from the writer status offset.  The fresh
uuid and fresh lease id are parameters of the model (they are generated
externally in the Go code). -/
def newBlobWriter (st : Store) (id : String) (freshId : String) (freshLease : String) :
    BlobWriter × Store :=
  let actualId := if id = "" then freshId else id
  let st1 := leaseCreate st freshLease
  let res := openWriter st1 (uploadRef actualId)
  ({ id := actualId, leaseId := freshLease, size := res.2 }, res.1)

/-- blobWriter.Write (blobwriter.go lines 123 to 135): append the data to the
staged ingest and add the byte count to the writer size. -/
def blobWriterWrite (bw : BlobWriter) (st : Store) (data : Bytes) : BlobWriter × Store :=
  ({ bw with size := bw.size + data.length }, ingestAppend st (uploadRef bw.id) data)

/-- Descriptor fill-in performed at the end of blobWriter.Commit
(blobwriter.go lines 163 to 169): a zero size is replaced by the writer
size and an empty media type by application/octet-stream. -/
def fillDesc (desc : Descriptor) (size : Nat) : Descriptor :=
  let d1 := if desc.size = 0 then { desc with size := size } else desc
  if d1.mediaType = "" then { d1 with mediaType := "application/octet-stream" } else d1

theorem fillDesc_digest (desc : Descriptor) (size : Nat) :
    (fillDesc desc size).digest = desc.digest := by
  unfold fillDesc
  split <;> dsimp only <;> split <;> rfl

/-- blobWriter.Commit (blobwriter.go lines 138 to 172): commit the staged
bytes under the expected digest.  On any commit error the lease is deleted;
already-exists is then treated as success, every other error is propagated.
On success the lease is intentionally retained. -/
def blobWriterCommit (dg : Bytes → Digest) (bw : BlobWriter) (st : Store)
    (desc : Descriptor) : Except DErr Descriptor × Store :=
  match writerCommit dg st (uploadRef bw.id) bw.size desc.digest with
  | (.ok, st1) => (.ok (fillDesc desc bw.size), st1)
  | (.alreadyExists, st1) => (.ok (fillDesc desc bw.size), leaseDelete st1 bw.leaseId)
  | (.failed msg, st1) =>
      (.error (.wrapped "commit blob to containerd content store" (.internal msg)),
        leaseDelete st1 bw.leaseId)

/-- blobWriter.Cancel (blobwriter.go lines 175 to 178): delete the lease. -/
def blobWriterCancel (bw : BlobWriter) (st : Store) : Store :=
  leaseDelete st bw.leaseId

/-- blobWriter.Close (blobwriter.go lines 181 to 191): close the underlying
content writer; when the writer size is zero additionally delete the lease
(lease deletion is idempotent). -/
def blobWriterClose (bw : BlobWriter) (st : Store) : Store :=
  let st1 := { st with openWriters := st.openWriters.filter (fun x => x ≠ uploadRef bw.id) }
  if bw.size = 0 then leaseDelete st1 bw.leaseId else st1

/-- blobStore.Stat (blob.go lines 27 to 43): content-store info mapped to a
descriptor with the octet-stream media type; absent digests map to
blob-unknown. -/
def blobStoreStat (st : Store) (d : Digest) : Except DErr Descriptor :=
  match alookup d st.committed with
  | none => .error .blobUnknown
  | some b => .ok { mediaType := "application/octet-stream", digest := d, size := b.length }

/-- blobStore.Get (blob.go lines 47 to 57): the full blob contents; absent
digests map to blob-unknown. -/
def blobStoreGet (st : Store) (d : Digest) : Except DErr Bytes :=
  match alookup d st.committed with
  | none => .error .blobUnknown
  | some b => .ok b

/-- blobStore.Open (blob.go lines 60 to 70): a reader over the whole blob,
modelled by the blob contents; absent digests map to blob-unknown. -/
def blobStoreOpen (st : Store) (d : Digest) : Except DErr Bytes :=
  match alookup d st.committed with
  | none => .error .blobUnknown
  | some b => .ok b

/-- blobStore.Put (blob.go lines 75 to 102): open a fresh writer, write the
blob, commit it under the digest of the bytes, then run the deferred cleanup
(cancel on error, close always). -/
def blobStorePut (dg : Bytes → Digest) (st : Store) (mediaType : String) (blob : Bytes)
    (freshId : String) (freshLease : String) : Except DErr Descriptor × Store :=
  let c := newBlobWriter st "" freshId freshLease
  let w := c.1
  let c2 := blobWriterWrite w c.2 blob
  let w2 := c2.1
  let desc : Descriptor := { mediaType := mediaType, digest := dg blob, size := blob.length }
  match blobWriterCommit dg w2 c2.2 desc with
  | (.ok desc2, st3) => (.ok desc2, blobWriterClose w2 st3)
  | (.error e, st3) => (.error e, blobWriterClose w2 (blobWriterCancel w2 st3))

/-- blobStore.Create (blob.go lines 105 to 109): a new upload session with a
fresh uuid. -/
def blobStoreCreate (st : Store) (freshId : String) (freshLease : String) :
    BlobWriter × Store :=
  newBlobWriter st "" freshId freshLease

/-- blobStore.Resume (blob.go lines 112 to 114): a writer for an existing
upload id. -/
def blobStoreResume (st : Store) (id : String) (freshId : String) (freshLease : String) :
    BlobWriter × Store :=
  newBlobWriter st id freshId freshLease

/-- HTTP response assembled by ServeBlob: headers in the order they are set,
and the body bytes copied to the writer. -/
structure HttpResponse where
  headers : List (String × String)
  body : Bytes
deriving DecidableEq

/-- Containerd content-store reads performed by ServeBlob, in order. -/
inductive BlobOp where
  | statOp (d : Digest)
  | openOp (d : Digest)
deriving DecidableEq

/-- blobStore.ServeBlob (blob.go lines 128 to 152): stat the blob first, set
the four headers from the descriptor, return after headers on HEAD, and
otherwise copy exactly `size` bytes from an opened reader.  `dstr` renders a
digest as its string form; the second component traces the content-store
calls. -/
def serveBlob (dstr : Digest → String) (st : Store) (method : String) (d : Digest) :
    Except DErr HttpResponse × List BlobOp :=
  match blobStoreStat st d with
  | .error e => (.error e, [BlobOp.statOp d])
  | .ok desc =>
    let headers := [("Content-Type", desc.mediaType),
                    ("Content-Length", toString desc.size),
                    ("Docker-Content-Digest", dstr d),
                    ("Etag", dstr d)]
    if method = "HEAD" then (.ok { headers := headers, body := [] }, [BlobOp.statOp d])
    else
      match blobStoreOpen st d with
      | .error e => (.error e, [BlobOp.statOp d, BlobOp.openOp d])
      | .ok content =>
          (.ok { headers := headers, body := content.take desc.size },
            [BlobOp.statOp d, BlobOp.openOp d])

/-- Parsed manifest, tagged by the deserializer that accepted it. -/
inductive Manifest where
  | ociManifest (payload : Bytes)
  | schema2Manifest (payload : Bytes)
  | manifestList (payload : Bytes)
deriving DecidableEq

/-- Deserialization attempts, identified by format.  The source performs
three attempts (ocischema.DeserializedManifest, schema2.DeserializedManifest
and manifestlist.DeserializedManifestList, the last covering both list
formats); `ociIndex` and `dockerManifestList` exist to state the separate
attempts the specification describes. -/
inductive ParseAttempt where
  | ociImageManifest
  | ociIndex
  | dockerSchema2
  | dockerManifestList
  | combinedManifestList
deriving DecidableEq

/-- Order of attempted deserializations as the specification words it:
OCI image manifest, then OCI index, then Docker schema 2 manifest, then
Docker manifest list. -/
def claimedParseOrder : List ParseAttempt :=
  [ParseAttempt.ociImageManifest, ParseAttempt.ociIndex,
   ParseAttempt.dockerSchema2, ParseAttempt.dockerManifestList]

/-- unmarshalManifest (blobwriter.go lines 279 to 299): try the OCI image
manifest deserializer, then the Docker schema 2 deserializer, then the
combined manifest-list deserializer; return the first success, or a
manifest-verification failure when none parses.  The deserializers of the
distribution library are abstract parameters; the second component is the
sequence of attempts made. -/
def unmarshalManifest (pOCI pS2 pList : Bytes → Option Manifest) (blob : Bytes) :
    Except DErr Manifest × List ParseAttempt :=
  match pOCI blob with
  | some m => (.ok m, [ParseAttempt.ociImageManifest])
  | none =>
    match pS2 blob with
    | some m => (.ok m, [ParseAttempt.ociImageManifest, ParseAttempt.dockerSchema2])
    | none =>
      match pList blob with
      | some m =>
          (.ok m, [ParseAttempt.ociImageManifest, ParseAttempt.dockerSchema2,
                   ParseAttempt.combinedManifestList])
      | none =>
          (.error .manifestVerification,
           [ParseAttempt.ociImageManifest, ParseAttempt.dockerSchema2,
            ParseAttempt.combinedManifestList])

/-- manifestService.Get (blobwriter.go lines 224 to 254): read the blob,
translating blob-unknown into manifest-unknown-revision; parse it with
unmarshalManifest, wrapping a parse failure. -/
def manifestGet (pOCI pS2 pList : Bytes → Option Manifest) (name : String)
    (st : Store) (d : Digest) : Except DErr Manifest × List ParseAttempt :=
  match blobStoreGet st d with
  | .error e =>
      if e = DErr.blobUnknown then (.error (.manifestUnknownRevision name d), [])
      else (.error e, [])
  | .ok blob =>
    match unmarshalManifest pOCI pS2 pList blob with
    | (.ok m, tr) => (.ok m, tr)
    | (.error e, tr) => (.error (.wrapped "unmarshal manifest" e), tr)

/-- Containerd calls issued by the tag service, in order. -/
inductive CdOp where
  | setLabels (parent : Digest) (children : List Digest)
  | imageGet (name : String)
  | imageCreate (name : String) (target : Descriptor)
  | imageUpdate (name : String) (target : Descriptor)
deriving DecidableEq

/-- The containerd image name composed from the canonical repository and a
tag (reference.WithTag followed by ref.String()). -/
def refString (repo tag : String) : String := repo ++ ":" ++ tag

/-- Label-setting walk performed by images.Dispatch with the handler
images.SetChildrenMappedLabels over images.ChildrenHandler (tags.go lines
81 to 92): visit the descriptor, set labels naming its children on its
content record when it has children, and recurse into the children.
`children` gives the child digests of a content record and `fuel` bounds the
recursion depth of the model. -/
def gcWalk (children : Digest → List Digest) : Nat → Digest → List CdOp
  | 0, _ => []
  | fuel + 1, d =>
      (if children d = [] then [] else [CdOp.setLabels d (children d)])
        ++ ((children d).map (fun c => gcWalk children fuel c)).flatten

/-- Parent content records reachable from a descriptor within the recursion
depth: the records the label walk must annotate. -/
def reachableParents (children : Digest → List Digest) : Nat → Digest → List Digest
  | 0, _ => []
  | fuel + 1, d =>
      (if children d = [] then [] else [d])
        ++ ((children d).map (fun c => reachableParents children fuel c)).flatten

/-- Record of the labels set by a walk, applied to the store state. -/
def applyLabels (st : Store) : List CdOp → Store
  | [] => st
  | CdOp.setLabels p cs :: rest =>
      applyLabels { st with labels := (p, cs) :: st.labels } rest
  | _ :: rest => applyLabels st rest

/-- Replace the target of an existing image record (images.Store.Update). -/
def setImage (l : List (String × Descriptor)) (name : String) (desc : Descriptor) :
    List (String × Descriptor) :=
  l.map (fun p => if p.1 = name then (p.1, desc) else p)

/-- tagService.Tag (tags.go lines 59 to 118): validate the tag reference,
set garbage-collection labels over all content reachable from the
descriptor, then create the image record, falling back to update when the
create reports already-exists.  `validTag` is the reference.WithTag
validation of the external reference library; the third component is the
trace of containerd calls in order. -/
def tagServiceTag (validTag : String → Bool) (children : Digest → List Digest)
    (fuel : Nat) (repo : String) (st : Store) (tag : String) (desc : Descriptor) :
    Except DErr Unit × Store × List CdOp :=
  if validTag tag then
    let ref := refString repo tag
    let walkOps := gcWalk children fuel desc.digest
    let st1 := applyLabels st walkOps
    match alookup ref st1.images with
    | none =>
        (.ok (), { st1 with images := (ref, desc) :: st1.images },
          walkOps ++ [CdOp.imageCreate ref desc])
    | some _ =>
        (.ok (), { st1 with images := setImage st1.images ref desc },
          walkOps ++ [CdOp.imageCreate ref desc, CdOp.imageUpdate ref desc])
  else (.error .invalidArgument, st, [])

/-- tagService.Get (tags.go lines 25 to 53): an invalid tag reference yields
manifest-unknown before any containerd call; otherwise the image record is
fetched, not-found mapping to tag-unknown. -/
def tagServiceGet (validTag : String → Bool) (repo : String) (st : Store) (tag : String) :
    Except DErr Descriptor × List CdOp :=
  if validTag tag then
    let ref := refString repo tag
    match alookup ref st.images with
    | none => (.error (.tagUnknown tag), [CdOp.imageGet ref])
    | some d => (.ok d, [CdOp.imageGet ref])
  else (.error (.manifestUnknown repo tag), [])

/-- Example digest function used by the witnesses: the identity on byte
strings (injective, as a real digest is assumed to be). -/
def exDg : Bytes → Digest := fun b => b

/-- Example blob writer used by the witnesses. -/
def exBw : BlobWriter := { id := "u", leaseId := "l", size := 1 }

/-- Example store holding the staged upload of `exBw`. -/
def exStOk : Store := { emptyStore with ingests := [(uploadRef "u", [7])], leases := ["l"] }

/-- Example descriptor committed by `exBw`. -/
def exDesc : Descriptor := { mediaType := "", digest := [7], size := 0 }

/-- Store state after `exBw` commits into `exStOk`. -/
def exStOkCommitted : Store := { emptyStore with committed := [([7], [7])], leases := ["l"] }

/-- Claim C1: for every blob-writer Commit call, if the underlying containerd
commit succeeds the upload lease is retained when Commit returns; if
containerd reports already-exists, Commit deletes the lease and returns
success with a still-valid descriptor (same digest, still committed); any
other commit error is propagated as a failure of Commit. -/
theorem blobWriterCommit_lease_contract (dg : Bytes → Digest) (bw : BlobWriter)
    (st : Store) (desc : Descriptor) (hmem : bw.leaseId ∈ st.leases) :
    (∀ st1, writerCommit dg st (uploadRef bw.id) bw.size desc.digest = (CommitOutcome.ok, st1) →
      blobWriterCommit dg bw st desc = (.ok (fillDesc desc bw.size), st1) ∧
      bw.leaseId ∈ (blobWriterCommit dg bw st desc).2.leases) ∧
    (∀ st1, writerCommit dg st (uploadRef bw.id) bw.size desc.digest =
        (CommitOutcome.alreadyExists, st1) →
      blobWriterCommit dg bw st desc = (.ok (fillDesc desc bw.size), leaseDelete st1 bw.leaseId) ∧
      (fillDesc desc bw.size).digest = desc.digest ∧
      (alookup desc.digest (blobWriterCommit dg bw st desc).2.committed).isSome = true ∧
      bw.leaseId ∉ (blobWriterCommit dg bw st desc).2.leases) ∧
    (∀ msg st1, writerCommit dg st (uploadRef bw.id) bw.size desc.digest =
        (CommitOutcome.failed msg, st1) →
      ∃ e, blobWriterCommit dg bw st desc = (.error e, leaseDelete st1 bw.leaseId)) := by
  refine ⟨?_, ?_, ?_⟩
  · intro st1 h
    have hbc : blobWriterCommit dg bw st desc = (.ok (fillDesc desc bw.size), st1) := by
      unfold blobWriterCommit
      rw [h]
    refine ⟨hbc, ?_⟩
    rw [hbc]
    have hl := writerCommit_leases dg st (uploadRef bw.id) bw.size desc.digest
    rw [h] at hl
    show bw.leaseId ∈ st1.leases
    rw [hl]
    exact hmem
  · intro st1 h
    have hbc : blobWriterCommit dg bw st desc =
        (.ok (fillDesc desc bw.size), leaseDelete st1 bw.leaseId) := by
      unfold blobWriterCommit
      rw [h]
    refine ⟨hbc, fillDesc_digest desc bw.size, ?_, ?_⟩
    · rw [hbc]
      show (alookup desc.digest (leaseDelete st1 bw.leaseId).committed).isSome = true
      exact @writerCommit_alreadyExists_isSome dg st (uploadRef bw.id) bw.size desc.digest st1 h
    · rw [hbc]
      show bw.leaseId ∉ (leaseDelete st1 bw.leaseId).leases
      rw [mem_leaseDelete]
      simp
  · intro msg st1 h
    refine ⟨DErr.wrapped "commit blob to containerd content store" (.internal msg), ?_⟩
    unfold blobWriterCommit
    rw [h]

/-- Witness for C1: a concrete successful commit returning the filled
descriptor and retaining the lease. -/
theorem blobWriterCommit_lease_contract_witness :
    exBw.leaseId ∈ exStOk.leases ∧
    blobWriterCommit exDg exBw exStOk exDesc = (.ok (fillDesc exDesc exBw.size), exStOkCommitted) ∧
    exBw.leaseId ∈ (blobWriterCommit exDg exBw exStOk exDesc).2.leases := by
  refine ⟨by decide, ?_⟩
  exact (blobWriterCommit_lease_contract exDg exBw exStOk exDesc (by decide)).1
    exStOkCommitted (by decide)

/-- Claim C10: after blob-writer Commit, the upload lease survives if and
only if the underlying containerd commit succeeded; every failure, not only
already-exists, deletes the lease before Commit returns. -/
theorem blobWriterCommit_lease_survives_iff (dg : Bytes → Digest) (bw : BlobWriter)
    (st : Store) (desc : Descriptor) (hmem : bw.leaseId ∈ st.leases) :
    bw.leaseId ∈ (blobWriterCommit dg bw st desc).2.leases ↔
      (writerCommit dg st (uploadRef bw.id) bw.size desc.digest).1 = CommitOutcome.ok := by
  unfold blobWriterCommit
  rcases hw : writerCommit dg st (uploadRef bw.id) bw.size desc.digest with ⟨out, st1⟩
  have hl := writerCommit_leases dg st (uploadRef bw.id) bw.size desc.digest
  rw [hw] at hl
  cases out with
  | ok =>
      constructor
      · intro _
        rfl
      · intro _
        show bw.leaseId ∈ st1.leases
        rw [hl]
        exact hmem
  | alreadyExists =>
      constructor
      · intro hmem2
        exact absurd (mem_leaseDelete.mp hmem2).2 (by simp)
      · intro hcontr
        cases hcontr
  | failed msg =>
      constructor
      · intro hmem2
        exact absurd (mem_leaseDelete.mp hmem2).2 (by simp)
      · intro hcontr
        cases hcontr

/-- Witness for C10: on the concrete successful commit the lease is present
and the inner outcome is ok. -/
theorem blobWriterCommit_lease_survives_iff_witness :
    exBw.leaseId ∈ exStOk.leases ∧
    (exBw.leaseId ∈ (blobWriterCommit exDg exBw exStOk exDesc).2.leases ↔
      (writerCommit exDg exStOk (uploadRef exBw.id) exBw.size exDesc.digest).1 =
        CommitOutcome.ok) :=
  ⟨by decide, blobWriterCommit_lease_survives_iff exDg exBw exStOk exDesc (by decide)⟩

theorem filter_idem {α : Type} (p : α → Bool) (l : List α) :
    (l.filter p).filter p = l.filter p := by
  induction l with
  | nil => rfl
  | cons a t ih =>
    by_cases h : p a <;> simp [List.filter_cons, h, ih]

/-- Claim C6: Close closes the underlying content writer, deletes the lease
exactly when the session has zero bytes written, and is idempotent with
respect to lease deletion. -/
theorem blobWriterClose_contract (bw : BlobWriter) (st : Store) :
    uploadRef bw.id ∉ (blobWriterClose bw st).openWriters ∧
    (bw.size = 0 → bw.leaseId ∉ (blobWriterClose bw st).leases) ∧
    (bw.size ≠ 0 → (blobWriterClose bw st).leases = st.leases) ∧
    (blobWriterClose bw (blobWriterClose bw st)).leases = (blobWriterClose bw st).leases := by
  unfold blobWriterClose
  by_cases h : bw.size = 0 <;>
    simp [h, leaseDelete, List.mem_filter, filter_idem]

/-- Witness for C6 at a zero-size writer: the writer ref is closed and the
lease deleted, idempotently. -/
theorem blobWriterClose_contract_witness :
    let bw0 : BlobWriter := { id := "u", leaseId := "l", size := 0 }
    uploadRef bw0.id ∉ (blobWriterClose bw0 exStOk).openWriters ∧
    (bw0.size = 0 → bw0.leaseId ∉ (blobWriterClose bw0 exStOk).leases) ∧
    (bw0.size ≠ 0 → (blobWriterClose bw0 exStOk).leases = exStOk.leases) ∧
    (blobWriterClose bw0 (blobWriterClose bw0 exStOk)).leases =
      (blobWriterClose bw0 exStOk).leases :=
  blobWriterClose_contract { id := "u", leaseId := "l", size := 0 } exStOk

/-- Parser that accepts nothing, used by witnesses. -/
def exPNone : Bytes → Option Manifest := fun _ => none

/-- Tag validation that accepts everything, used by witnesses. -/
def exVT : String → Bool := fun _ => true

/-- Claim C5: a digest absent from the content store yields blob-unknown
from the blob store, manifest-unknown-revision from the manifest service,
and a tag with no image record yields tag-unknown from the tag service. -/
theorem notFound_mapping (pOCI pS2 pList : Bytes → Option Manifest)
    (validTag : String → Bool) (repo : String) (st : Store) (d : Digest) (tag : String)
    (hd : alookup d st.committed = none)
    (hv : validTag tag = true)
    (hti : alookup (refString repo tag) st.images = none) :
    blobStoreGet st d = .error .blobUnknown ∧
    (manifestGet pOCI pS2 pList repo st d).1 = .error (.manifestUnknownRevision repo d) ∧
    (tagServiceGet validTag repo st tag).1 = .error (.tagUnknown tag) := by
  refine ⟨?_, ?_, ?_⟩
  · simp [blobStoreGet, hd]
  · simp [manifestGet, blobStoreGet, hd]
  · simp [tagServiceGet, hv, hti]

/-- Witness for C5 on the empty store. -/
theorem notFound_mapping_witness :
    blobStoreGet emptyStore [1] = .error .blobUnknown ∧
    (manifestGet exPNone exPNone exPNone "r" emptyStore [1]).1 =
      .error (.manifestUnknownRevision "r" [1]) ∧
    (tagServiceGet exVT "r" emptyStore "t").1 = .error (.tagUnknown "t") :=
  notFound_mapping exPNone exPNone exPNone exVT "r" emptyStore [1] "t" rfl rfl rfl

/-- Claim C8: ServeBlob on a present blob stats it first, sets Content-Type,
Content-Length, Docker-Content-Digest and Etag from the descriptor, returns
after the headers on HEAD, and on GET copies exactly `size` bytes from an
opened reader. -/
theorem serveBlob_contract (dstr : Digest → String) (st : Store) (d : Digest) (B : Bytes)
    (hB : alookup d st.committed = some B) :
    serveBlob dstr st "HEAD" d =
      (.ok { headers := [("Content-Type", "application/octet-stream"),
                         ("Content-Length", toString B.length),
                         ("Docker-Content-Digest", dstr d),
                         ("Etag", dstr d)],
             body := [] },
       [BlobOp.statOp d]) ∧
    serveBlob dstr st "GET" d =
      (.ok { headers := [("Content-Type", "application/octet-stream"),
                         ("Content-Length", toString B.length),
                         ("Docker-Content-Digest", dstr d),
                         ("Etag", dstr d)],
             body := B },
       [BlobOp.statOp d, BlobOp.openOp d]) := by
  constructor
  · simp [serveBlob, blobStoreStat, hB]
  · simp [serveBlob, blobStoreStat, blobStoreOpen, hB]

/-- Example store for the ServeBlob witness. -/
def exServeSt : Store := { emptyStore with committed := [([5], [9, 8])] }

/-- Witness for C8 on a concrete two-byte blob. -/
theorem serveBlob_contract_witness :
    serveBlob (fun _ => "dg") exServeSt "HEAD" [5] =
      (.ok { headers := [("Content-Type", "application/octet-stream"),
                         ("Content-Length", toString ([9, 8] : Bytes).length),
                         ("Docker-Content-Digest", "dg"),
                         ("Etag", "dg")],
             body := [] },
       [BlobOp.statOp [5]]) ∧
    serveBlob (fun _ => "dg") exServeSt "GET" [5] =
      (.ok { headers := [("Content-Type", "application/octet-stream"),
                         ("Content-Length", toString ([9, 8] : Bytes).length),
                         ("Docker-Content-Digest", "dg"),
                         ("Etag", "dg")],
             body := [9, 8] },
       [BlobOp.statOp [5], BlobOp.openOp [5]]) :=
  serveBlob_contract (fun _ => "dg") exServeSt [5] [9, 8] rfl

/-- Claim C9 counterexample: on a tag that fails validation, tagService.Get
does not return an invalid-argument error as the claim states; it returns
manifest-unknown. -/
theorem tagServiceGet_invalid_counterexample :
    (tagServiceGet (fun _ => false) "r" emptyStore "t").1 =
      Except.error (DErr.manifestUnknown "r" "t") ∧
    DErr.manifestUnknown "r" "t" ≠ DErr.invalidArgument := by
  constructor
  · rfl
  · decide

/-- Amended C9: a tag that fails validation makes both tag-service
operations fail before any containerd call (empty call trace); Tag fails
with the invalid-argument validation error, while Get fails with
manifest-unknown. -/
theorem tagService_invalid_tag_no_io (validTag : String → Bool)
    (children : Digest → List Digest) (fuel : Nat) (repo : String) (st : Store)
    (tag : String) (desc : Descriptor) (hv : validTag tag = false) :
    tagServiceGet validTag repo st tag = (.error (.manifestUnknown repo tag), []) ∧
    tagServiceTag validTag children fuel repo st tag desc =
      (.error .invalidArgument, st, []) := by
  constructor <;> simp [tagServiceGet, tagServiceTag, hv]

/-- Witness for the amended C9. -/
theorem tagService_invalid_tag_no_io_witness :
    tagServiceGet (fun _ => false) "r" emptyStore "t" =
      (.error (.manifestUnknown "r" "t"), []) ∧
    tagServiceTag (fun _ => false) (fun _ => []) 1 "r" emptyStore "t" exDesc =
      (.error .invalidArgument, emptyStore, []) :=
  tagService_invalid_tag_no_io (fun _ => false) (fun _ => []) 1 "r" emptyStore "t" exDesc rfl

/-- Claim C4 counterexample: on a present blob that no deserializer accepts,
the attempts made by manifestService.Get are OCI image manifest, Docker
schema 2, then the combined manifest-list parse; this is not the four-step
sequence the claim states (whose second attempt is an OCI index parse). -/
theorem unmarshalManifest_order_counterexample :
    (manifestGet exPNone exPNone exPNone "r" exStOkCommitted [7]).2 =
      [ParseAttempt.ociImageManifest, ParseAttempt.dockerSchema2,
       ParseAttempt.combinedManifestList] ∧
    [ParseAttempt.ociImageManifest, ParseAttempt.dockerSchema2,
       ParseAttempt.combinedManifestList] ≠ claimedParseOrder := by
  constructor
  · rfl
  · decide

/-- Amended C4: manifest Get on present blob bytes attempts, in order, the
OCI image manifest deserializer, the Docker schema 2 deserializer, and the
combined manifest-list deserializer (covering OCI index and Docker manifest
list); the first success is returned, and if none parses Get returns a
wrapped manifest-verification failure. -/
theorem manifestGet_parse_order (pOCI pS2 pList : Bytes → Option Manifest)
    (name : String) (st : Store) (d : Digest) (B : Bytes)
    (hB : alookup d st.committed = some B) :
    (∀ m, pOCI B = some m →
      manifestGet pOCI pS2 pList name st d = (.ok m, [ParseAttempt.ociImageManifest])) ∧
    (pOCI B = none → ∀ m, pS2 B = some m →
      manifestGet pOCI pS2 pList name st d =
        (.ok m, [ParseAttempt.ociImageManifest, ParseAttempt.dockerSchema2])) ∧
    (pOCI B = none → pS2 B = none → ∀ m, pList B = some m →
      manifestGet pOCI pS2 pList name st d =
        (.ok m, [ParseAttempt.ociImageManifest, ParseAttempt.dockerSchema2,
                 ParseAttempt.combinedManifestList])) ∧
    (pOCI B = none → pS2 B = none → pList B = none →
      manifestGet pOCI pS2 pList name st d =
        (.error (.wrapped "unmarshal manifest" .manifestVerification),
         [ParseAttempt.ociImageManifest, ParseAttempt.dockerSchema2,
          ParseAttempt.combinedManifestList])) := by
  refine ⟨?_, ?_, ?_, ?_⟩
  · intro m hm
    simp [manifestGet, blobStoreGet, hB, unmarshalManifest, hm]
  · intro h1 m hm
    simp [manifestGet, blobStoreGet, hB, unmarshalManifest, h1, hm]
  · intro h1 h2 m hm
    simp [manifestGet, blobStoreGet, hB, unmarshalManifest, h1, h2, hm]
  · intro h1 h2 h3
    simp [manifestGet, blobStoreGet, hB, unmarshalManifest, h1, h2, h3]

/-- Witness for the amended C4 with deserializers that accept nothing. -/
theorem manifestGet_parse_order_witness :
    (∀ m, exPNone ([7] : Bytes) = some m →
      manifestGet exPNone exPNone exPNone "r" exStOkCommitted [7] =
        (.ok m, [ParseAttempt.ociImageManifest])) ∧
    (exPNone ([7] : Bytes) = none → ∀ m, exPNone ([7] : Bytes) = some m →
      manifestGet exPNone exPNone exPNone "r" exStOkCommitted [7] =
        (.ok m, [ParseAttempt.ociImageManifest, ParseAttempt.dockerSchema2])) ∧
    (exPNone ([7] : Bytes) = none → exPNone ([7] : Bytes) = none →
      ∀ m, exPNone ([7] : Bytes) = some m →
      manifestGet exPNone exPNone exPNone "r" exStOkCommitted [7] =
        (.ok m, [ParseAttempt.ociImageManifest, ParseAttempt.dockerSchema2,
                 ParseAttempt.combinedManifestList])) ∧
    (exPNone ([7] : Bytes) = none → exPNone ([7] : Bytes) = none →
      exPNone ([7] : Bytes) = none →
      manifestGet exPNone exPNone exPNone "r" exStOkCommitted [7] =
        (.error (.wrapped "unmarshal manifest" .manifestVerification),
         [ParseAttempt.ociImageManifest, ParseAttempt.dockerSchema2,
          ParseAttempt.combinedManifestList])) :=
  manifestGet_parse_order exPNone exPNone exPNone "r" exStOkCommitted [7] [7] rfl

theorem map_append_of_alookup_none {k : String} (d : Bytes) :
    ∀ {l : List (String × Bytes)}, alookup k l = none →
      l.map (fun p => if p.1 = k then (p.1, p.2 ++ d) else p) = l := by
  intro l
  induction l with
  | nil => intro _; rfl
  | cons p rest ih =>
    intro h
    by_cases hk : k = p.1
    · rw [alookup, if_pos hk] at h
      exact absurd h (by simp)
    · rw [alookup, if_neg hk] at h
      have hk' : ¬ p.1 = k := fun e => hk e.symm
      simp [hk', ih h]

theorem blobWriterClose_ingests (bw : BlobWriter) (st : Store) :
    (blobWriterClose bw st).ingests = st.ingests := by
  unfold blobWriterClose
  split <;> rfl

theorem blobWriterClose_committed (bw : BlobWriter) (st : Store) :
    (blobWriterClose bw st).committed = st.committed := by
  unfold blobWriterClose
  split <;> rfl

theorem fillDesc_size (desc : Descriptor) (n : Nat) (h : desc.size = n) :
    (fillDesc desc n).size = n := by
  unfold fillDesc
  by_cases h0 : desc.size = 0
  · rw [if_pos h0]
    dsimp only
    split <;> rfl
  · rw [if_neg h0]
    dsimp only
    split <;> simp [h]

/-- Characterization of a containerd commit whose staged bytes match the
expected size and digest: new content is committed when the digest is
absent, already-exists is reported when it is present. -/
theorem writerCommit_staged (dg : Bytes → Digest) (st : Store) (ref : String) (blob : Bytes)
    (hing : alookup ref st.ingests = some blob) :
    (alookup (dg blob) st.committed = none →
      writerCommit dg st ref blob.length (dg blob) =
        (.ok, { st with committed := (dg blob, blob) :: st.committed,
                        ingests := st.ingests.filter (fun p => p.1 ≠ ref),
                        openWriters := st.openWriters.filter (fun x => x ≠ ref) })) ∧
    (∀ B2, alookup (dg blob) st.committed = some B2 →
      writerCommit dg st ref blob.length (dg blob) =
        (.alreadyExists,
          { st with ingests := st.ingests.filter (fun p => p.1 ≠ ref),
                    openWriters := st.openWriters.filter (fun x => x ≠ ref) })) := by
  constructor
  · intro hc
    unfold writerCommit
    rw [hing]
    simp [hc]
  · intro B2 hc
    unfold writerCommit
    rw [hing]
    simp [hc]

/-- Well-formedness of the content store: committed content is keyed by the
digest of its own bytes (the content store is content-addressed). -/
def StoreWF (dg : Bytes → Digest) (st : Store) : Prop :=
  ∀ p ∈ st.committed, p.1 = dg p.2

/-- Claim C3: for any bytes and media type, blob-store Put returns a
descriptor carrying the digest of the bytes and their length; afterwards Get
on that digest returns exactly the bytes and Stat reports their length.
Assumes an injective digest function, a content-addressed store, and a fresh
upload ref (the uuid generated by the Go code is fresh). -/
theorem blobStorePut_roundtrip (dg : Bytes → Digest) (hinj : Function.Injective dg)
    (st : Store) (hwf : StoreWF dg st) (m : String) (blob : Bytes)
    (freshId freshLease : String)
    (hfresh : alookup (uploadRef freshId) st.ingests = none) :
    ∃ d st2, blobStorePut dg st m blob freshId freshLease = (.ok d, st2) ∧
      d.digest = dg blob ∧ d.size = blob.length ∧
      blobStoreGet st2 (dg blob) = .ok blob ∧
      blobStoreStat st2 (dg blob) =
        .ok { mediaType := "application/octet-stream", digest := dg blob,
              size := blob.length } := by
  have h1 : newBlobWriter st "" freshId freshLease =
      ({ id := freshId, leaseId := freshLease, size := 0 },
       { st with leases := freshLease :: st.leases,
                 ingests := (uploadRef freshId, []) :: st.ingests,
                 openWriters := uploadRef freshId :: st.openWriters }) := by
    simp [newBlobWriter, leaseCreate, openWriter, hfresh]
  have h2 : blobWriterWrite { id := freshId, leaseId := freshLease, size := 0 }
      { st with leases := freshLease :: st.leases,
                ingests := (uploadRef freshId, []) :: st.ingests,
                openWriters := uploadRef freshId :: st.openWriters } blob =
      ({ id := freshId, leaseId := freshLease, size := blob.length },
       { st with leases := freshLease :: st.leases,
                 ingests := (uploadRef freshId, blob) :: st.ingests,
                 openWriters := uploadRef freshId :: st.openWriters }) := by
    simp [blobWriterWrite, ingestAppend, map_append_of_alookup_none blob hfresh]
  have hingB : alookup (uploadRef freshId)
      ({ st with leases := freshLease :: st.leases,
                 ingests := (uploadRef freshId, blob) :: st.ingests,
                 openWriters := uploadRef freshId :: st.openWriters } : Store).ingests =
      some blob := by
    simp [alookup]
  rcases hcase : alookup (dg blob) st.committed with _ | B2
  · -- the digest is new: the commit succeeds
    have hwc := (writerCommit_staged dg _ (uploadRef freshId) blob hingB).1 hcase
    have hcom : blobWriterCommit dg { id := freshId, leaseId := freshLease, size := blob.length }
        { st with leases := freshLease :: st.leases,
                  ingests := (uploadRef freshId, blob) :: st.ingests,
                  openWriters := uploadRef freshId :: st.openWriters }
        { mediaType := m, digest := dg blob, size := blob.length } =
        (.ok (fillDesc { mediaType := m, digest := dg blob, size := blob.length } blob.length),
         { st with
             committed := (dg blob, blob) :: st.committed,
             leases := freshLease :: st.leases,
             ingests := ((uploadRef freshId, blob) :: st.ingests).filter
               (fun p => p.1 ≠ uploadRef freshId),
             openWriters := (uploadRef freshId :: st.openWriters).filter
               (fun x => x ≠ uploadRef freshId) }) := by
      simp only [blobWriterCommit]
      rw [hwc]
    have hP : blobStorePut dg st m blob freshId freshLease =
        (.ok (fillDesc { mediaType := m, digest := dg blob, size := blob.length } blob.length),
         blobWriterClose { id := freshId, leaseId := freshLease, size := blob.length }
           { st with
               committed := (dg blob, blob) :: st.committed,
               leases := freshLease :: st.leases,
               ingests := ((uploadRef freshId, blob) :: st.ingests).filter
                 (fun p => p.1 ≠ uploadRef freshId),
               openWriters := (uploadRef freshId :: st.openWriters).filter
                 (fun x => x ≠ uploadRef freshId) }) := by
      simp only [blobStorePut, h1, h2, hcom]
    refine ⟨_, _, hP, fillDesc_digest _ _, fillDesc_size _ _ rfl, ?_, ?_⟩
    · unfold blobStoreGet
      rw [blobWriterClose_committed]
      simp [alookup]
    · unfold blobStoreStat
      rw [blobWriterClose_committed]
      simp [alookup]
  · -- the digest is already committed: already-exists, dedup
    have hmemc := alookup_eq_some_mem hcase
    have hB2 : blob = B2 := hinj (hwf _ hmemc)
    have hwc := (writerCommit_staged dg _ (uploadRef freshId) blob hingB).2 B2 hcase
    have hcom : blobWriterCommit dg { id := freshId, leaseId := freshLease, size := blob.length }
        { st with leases := freshLease :: st.leases,
                  ingests := (uploadRef freshId, blob) :: st.ingests,
                  openWriters := uploadRef freshId :: st.openWriters }
        { mediaType := m, digest := dg blob, size := blob.length } =
        (.ok (fillDesc { mediaType := m, digest := dg blob, size := blob.length } blob.length),
         leaseDelete
           { st with
               leases := freshLease :: st.leases,
               ingests := ((uploadRef freshId, blob) :: st.ingests).filter
                 (fun p => p.1 ≠ uploadRef freshId),
               openWriters := (uploadRef freshId :: st.openWriters).filter
                 (fun x => x ≠ uploadRef freshId) } freshLease) := by
      simp only [blobWriterCommit]
      rw [hwc]
    have hP : blobStorePut dg st m blob freshId freshLease =
        (.ok (fillDesc { mediaType := m, digest := dg blob, size := blob.length } blob.length),
         blobWriterClose { id := freshId, leaseId := freshLease, size := blob.length }
           (leaseDelete
             { st with
                 leases := freshLease :: st.leases,
                 ingests := ((uploadRef freshId, blob) :: st.ingests).filter
                   (fun p => p.1 ≠ uploadRef freshId),
                 openWriters := (uploadRef freshId :: st.openWriters).filter
                   (fun x => x ≠ uploadRef freshId) } freshLease)) := by
      simp only [blobStorePut, h1, h2, hcom]
    refine ⟨_, _, hP, fillDesc_digest _ _, fillDesc_size _ _ rfl, ?_, ?_⟩
    · unfold blobStoreGet
      rw [blobWriterClose_committed]
      show (match alookup (dg blob) st.committed with
            | none => Except.error DErr.blobUnknown
            | some b => Except.ok b) = Except.ok blob
      rw [hcase, hB2]
    · unfold blobStoreStat
      rw [blobWriterClose_committed]
      show (match alookup (dg blob) st.committed with
            | none => Except.error DErr.blobUnknown
            | some b =>
                Except.ok (Descriptor.mk "application/octet-stream" (dg blob) b.length)) =
          Except.ok (Descriptor.mk "application/octet-stream" (dg blob)
            blob.length)
      rw [hcase, hB2]

/-- Witness for C3: putting a two-byte blob into the empty store with the
identity digest. -/
theorem blobStorePut_roundtrip_witness :
    ∃ d st2, blobStorePut exDg emptyStore "mt" [3, 4] "i" "L" = (.ok d, st2) ∧
      d.digest = exDg [3, 4] ∧ d.size = ([3, 4] : Bytes).length ∧
      blobStoreGet st2 (exDg [3, 4]) = .ok [3, 4] ∧
      blobStoreStat st2 (exDg [3, 4]) =
        .ok { mediaType := "application/octet-stream", digest := exDg [3, 4],
              size := ([3, 4] : Bytes).length } :=
  blobStorePut_roundtrip exDg (fun _ _ h => h) emptyStore
    (fun p hp => by simp [emptyStore] at hp) "mt" [3, 4] "i" "L" rfl

/-- Scenario of claim C7 up to the close: create an upload session, write
data through it, then close it without committing. -/
def resumeScenarioClose (st0 : Store) (data : Bytes) (uid l1 : String) : Store :=
  let c1 := blobStoreCreate st0 uid l1
  let c2 := blobWriterWrite c1.1 c1.2 data
  blobWriterClose c2.1 c2.2

/-- Claim C7: creating a session, writing `n` bytes, closing without commit,
then resuming with the session id yields a writer whose size is `n`, and a
subsequent write appends after offset `n` (the staged bytes become the old
data followed by the new). -/
theorem resume_size_append (st0 : Store) (data data2 : Bytes) (uid l1 fid2 l2 : String)
    (hne : uid ≠ "") (hfresh : alookup (uploadRef uid) st0.ingests = none) :
    (blobStoreCreate st0 uid l1).1.id = uid ∧
    (blobStoreResume (resumeScenarioClose st0 data uid l1) uid fid2 l2).1.size =
      data.length ∧
    (blobWriterWrite (blobStoreResume (resumeScenarioClose st0 data uid l1) uid fid2 l2).1
        (blobStoreResume (resumeScenarioClose st0 data uid l1) uid fid2 l2).2 data2).1.size =
      data.length + data2.length ∧
    alookup (uploadRef uid)
      (blobWriterWrite (blobStoreResume (resumeScenarioClose st0 data uid l1) uid fid2 l2).1
        (blobStoreResume (resumeScenarioClose st0 data uid l1) uid fid2 l2).2 data2).2.ingests =
      some (data ++ data2) := by
  have h1 : blobStoreCreate st0 uid l1 =
      ({ id := uid, leaseId := l1, size := 0 },
       { st0 with leases := l1 :: st0.leases,
                  ingests := (uploadRef uid, []) :: st0.ingests,
                  openWriters := uploadRef uid :: st0.openWriters }) := by
    simp [blobStoreCreate, newBlobWriter, leaseCreate, openWriter, hfresh]
  have h2 : blobWriterWrite { id := uid, leaseId := l1, size := 0 }
      { st0 with leases := l1 :: st0.leases,
                 ingests := (uploadRef uid, []) :: st0.ingests,
                 openWriters := uploadRef uid :: st0.openWriters } data =
      ({ id := uid, leaseId := l1, size := data.length },
       { st0 with leases := l1 :: st0.leases,
                  ingests := (uploadRef uid, data) :: st0.ingests,
                  openWriters := uploadRef uid :: st0.openWriters }) := by
    simp [blobWriterWrite, ingestAppend, map_append_of_alookup_none data hfresh]
  have h3 : (resumeScenarioClose st0 data uid l1).ingests =
      (uploadRef uid, data) :: st0.ingests := by
    unfold resumeScenarioClose
    rw [h1]
    dsimp only
    rw [h2]
    dsimp only
    rw [blobWriterClose_ingests]
  have hing3 : alookup (uploadRef uid) (resumeScenarioClose st0 data uid l1).ingests =
      some data := by
    rw [h3]
    simp [alookup]
  have h4 : blobStoreResume (resumeScenarioClose st0 data uid l1) uid fid2 l2 =
      ({ id := uid, leaseId := l2, size := data.length },
       { resumeScenarioClose st0 data uid l1 with
           leases := l2 :: (resumeScenarioClose st0 data uid l1).leases,
           openWriters := uploadRef uid :: (resumeScenarioClose st0 data uid l1).openWriters }) := by
    simp [blobStoreResume, newBlobWriter, leaseCreate, openWriter, hne, hing3]
  refine ⟨by rw [h1], by rw [h4], by rw [h4]; simp [blobWriterWrite], ?_⟩
  rw [h4]
  show alookup (uploadRef uid)
      (blobWriterWrite { id := uid, leaseId := l2, size := data.length }
        { resumeScenarioClose st0 data uid l1 with
            leases := l2 :: (resumeScenarioClose st0 data uid l1).leases,
            openWriters := uploadRef uid :: (resumeScenarioClose st0 data uid l1).openWriters }
        data2).2.ingests = some (data ++ data2)
  have hing4 : alookup (uploadRef uid)
      ({ resumeScenarioClose st0 data uid l1 with
           leases := l2 :: (resumeScenarioClose st0 data uid l1).leases,
           openWriters := uploadRef uid ::
             (resumeScenarioClose st0 data uid l1).openWriters } : Store).ingests =
      some data := hing3
  exact alookup_ingestAppend_self data2 hing4

/-- Witness for C7: resuming a one-byte upload on the empty store. -/
theorem resume_size_append_witness :
    (blobStoreCreate emptyStore "u" "a").1.id = "u" ∧
    (blobStoreResume (resumeScenarioClose emptyStore [1] "u" "a") "u" "b" "c").1.size =
      ([1] : Bytes).length ∧
    (blobWriterWrite (blobStoreResume (resumeScenarioClose emptyStore [1] "u" "a") "u" "b" "c").1
        (blobStoreResume (resumeScenarioClose emptyStore [1] "u" "a") "u" "b" "c").2 [2]).1.size =
      ([1] : Bytes).length + ([2] : Bytes).length ∧
    alookup (uploadRef "u")
      (blobWriterWrite (blobStoreResume (resumeScenarioClose emptyStore [1] "u" "a") "u" "b" "c").1
        (blobStoreResume (resumeScenarioClose emptyStore [1] "u" "a") "u" "b" "c").2 [2]).2.ingests =
      some ([1] ++ [2]) :=
  resume_size_append emptyStore [1] [2] "u" "a" "b" "c" (by decide) rfl

theorem gcWalk_ops (children : Digest → List Digest) :
    ∀ (fuel : Nat) (d : Digest), ∀ op ∈ gcWalk children fuel d,
      ∃ p, op = CdOp.setLabels p (children p) := by
  intro fuel
  induction fuel with
  | zero =>
    intro d op hop
    simp [gcWalk] at hop
  | succ f ih =>
    intro d op hop
    rw [gcWalk] at hop
    rcases List.mem_append.mp hop with h | h
    · split at h
      · simp at h
      · rw [List.mem_singleton] at h
        exact ⟨d, h⟩
    · rcases List.mem_flatten.mp h with ⟨l, hl, hopl⟩
      rcases List.mem_map.mp hl with ⟨c, _, hc⟩
      rw [← hc] at hopl
      exact ih c op hopl

theorem reachableParents_labeled (children : Digest → List Digest) :
    ∀ (fuel : Nat) (d : Digest) (p : Digest), p ∈ reachableParents children fuel d →
      CdOp.setLabels p (children p) ∈ gcWalk children fuel d := by
  intro fuel
  induction fuel with
  | zero =>
    intro d p hp
    simp [reachableParents] at hp
  | succ f ih =>
    intro d p hp
    rw [reachableParents] at hp
    rw [gcWalk]
    rcases List.mem_append.mp hp with h | h
    · split at h
      · simp at h
      · rw [List.mem_singleton] at h
        subst h
        apply List.mem_append.mpr
        left
        split
        · rename_i hnil
          exact absurd hnil (by assumption)
        · exact List.mem_singleton.mpr rfl
    · rcases List.mem_flatten.mp h with ⟨l, hl, hpl⟩
      rcases List.mem_map.mp hl with ⟨c, hcmem, hc⟩
      rw [← hc] at hpl
      apply List.mem_append.mpr
      right
      exact List.mem_flatten.mpr ⟨gcWalk children f c, List.mem_map.mpr ⟨c, hcmem, rfl⟩, ih c p hpl⟩

/-- Claim C2: in every Tag execution on a valid tag, the containerd call
trace is the garbage-collection label walk followed by the image
create (and update when the record exists); every walk call is a label set
naming the children of a reachable parent, every parent reachable from the
descriptor is labeled during the walk, and no label set occurs after the
image create/update step. -/
theorem tagServiceTag_labels_before_image (validTag : String → Bool)
    (children : Digest → List Digest) (fuel : Nat) (repo : String) (st : Store)
    (tag : String) (desc : Descriptor) (hv : validTag tag = true) :
    ∃ post,
      (tagServiceTag validTag children fuel repo st tag desc).2.2 =
        gcWalk children fuel desc.digest ++ post ∧
      (∀ op ∈ gcWalk children fuel desc.digest, ∃ p, op = CdOp.setLabels p (children p)) ∧
      (∀ p ∈ reachableParents children fuel desc.digest,
        CdOp.setLabels p (children p) ∈ gcWalk children fuel desc.digest) ∧
      (∀ op ∈ post, ∀ p cs, op ≠ CdOp.setLabels p cs) ∧
      (post = [CdOp.imageCreate (refString repo tag) desc] ∨
       post = [CdOp.imageCreate (refString repo tag) desc,
               CdOp.imageUpdate (refString repo tag) desc]) ∧
      (tagServiceTag validTag children fuel repo st tag desc).1 = .ok () := by
  unfold tagServiceTag
  rw [hv]
  simp only [if_true]
  rcases himg : alookup (refString repo tag)
      (applyLabels st (gcWalk children fuel desc.digest)).images with _ | d0
  · refine ⟨[CdOp.imageCreate (refString repo tag) desc], rfl,
      gcWalk_ops children fuel desc.digest,
      reachableParents_labeled children fuel desc.digest, ?_, Or.inl rfl, rfl⟩
    intro op hop p cs
    rw [List.mem_singleton] at hop
    subst hop
    simp
  · refine ⟨[CdOp.imageCreate (refString repo tag) desc,
             CdOp.imageUpdate (refString repo tag) desc], rfl,
      gcWalk_ops children fuel desc.digest,
      reachableParents_labeled children fuel desc.digest, ?_, Or.inr rfl, rfl⟩
    intro op hop p cs
    rcases List.mem_cons.mp hop with h | h
    · subst h
      simp
    · rw [List.mem_singleton] at h
      subst h
      simp

/-- Children map for the C2 witness: the root manifest references two
layers. -/
def exChildren : Digest → List Digest := fun d => if d = [0] then [[1], [2]] else []

/-- Root descriptor for the C2 witness. -/
def exDescRoot : Descriptor := { mediaType := "mt", digest := [0], size := 1 }

/-- Witness for C2 on a two-layer manifest tagged into the empty store. -/
theorem tagServiceTag_labels_before_image_witness :
    ∃ post,
      (tagServiceTag exVT exChildren 2 "r" emptyStore "t" exDescRoot).2.2 =
        gcWalk exChildren 2 exDescRoot.digest ++ post ∧
      (∀ op ∈ gcWalk exChildren 2 exDescRoot.digest,
        ∃ p, op = CdOp.setLabels p (exChildren p)) ∧
      (∀ p ∈ reachableParents exChildren 2 exDescRoot.digest,
        CdOp.setLabels p (exChildren p) ∈ gcWalk exChildren 2 exDescRoot.digest) ∧
      (∀ op ∈ post, ∀ p cs, op ≠ CdOp.setLabels p cs) ∧
      (post = [CdOp.imageCreate (refString "r" "t") exDescRoot] ∨
       post = [CdOp.imageCreate (refString "r" "t") exDescRoot,
               CdOp.imageUpdate (refString "r" "t") exDescRoot]) ∧
      (tagServiceTag exVT exChildren 2 "r" emptyStore "t" exDescRoot).1 = .ok () :=
  tagServiceTag_labels_before_image exVT exChildren 2 "r" emptyStore "t" exDescRoot rfl

end Unregistry
